import Mathlib

/-!
Shallow embedding of `nicer-server` (`src/lib/index.js`), the lifecycle
manager created by `createServer(cb, c)`: an HTTP(S) server wrapper holding a
`Map` of live sockets keyed by uuid, with `close`, `listen` and `restart`
methods returning promises.

Modelling conventions:

* Socket objects are identified by a `Nat` key into a heap; the fields this
  library writes on them (`idle`, `uuid`) are `Option`-valued because they are
  `undefined` until first assigned.
* `uuid.v4()` is modelled as a fresh-`Nat` counter (`nextId`): the only
  property the code relies on is freshness of each generated identifier.
* The JS `Map` (`server.sockets`) is an insertion-ordered association list;
  `mapSet` updates in place or appends, `mapDelete` removes, exactly as
  `Map.prototype.set` / `delete` behave.
* Each public operation is split into its synchronous executor phase (the body
  of `new config.Promise((resolve) => { ... })`, which runs to completion
  before anything else) and the asynchronous transport completion (the
  `instance.close` / `instance.listen` callback, delivered later).  The
  observable behaviour is an event trace plus the settlement of the returned
  promise (`Outcome`).
* `socket.destroy()` in Node never reports failure to its caller (errors
  surface out-of-band as socket `error` events); the oracle `o : Nat → Bool`
  records in the trace whether each issued destruction eventually succeeds,
  without the library observing it.
-/

namespace NicerServer

/-- Error taxonomy of the specification: `InvalidArgument` (construction-time
`TypeError`) and `BindError` (transport failed to bind the port). -/
inductive JsError where
  | bindError
  | invalidArgument
  deriving DecidableEq

/-- Settlement of a JS promise: resolved, rejected with an error, or never
settled at all. -/
inductive Outcome where
  | resolved
  | rejectedWith (e : JsError)
  | pending
  deriving DecidableEq

/-- The fields this library assigns on a transport socket object.  Both are
`undefined` (`none`) until the library first writes them. -/
structure SocketData where
  idle : Option Bool
  uuid : Option Nat
  deriving DecidableEq

/-- Observable events of the embedding, in program order. -/
inductive Event where
  | destroyCall (sock : Nat) (ok : Bool)
  | registryDelete (u : Option Nat)
  | registryInsert (u : Nat) (sock : Nat)
  | attachObservers
  | bindIssued
  | bindCompleted
  | bindErrorEmitted
  | transportCloseIssued
  | transportCloseCompleted
  | closeResolved
  | listenResolved
  | restartResolved
  deriving DecidableEq

/-- State of one server object: the `instance.listening` flag, the heap of
socket objects touched so far, the `server.sockets` map (uuid to socket key,
insertion-ordered), the number of attached `request`/`connection` observer
pairs, and the fresh-identifier counter standing in for `uuid.v4()`. -/
structure ServerState where
  listening : Bool
  heap : List (Nat × SocketData)
  registry : List (Nat × Nat)
  handlers : Nat
  nextId : Nat
  deriving DecidableEq

/-- Lookup in an insertion-ordered association list (JS `Map.prototype.get`). -/
def mapGet {α : Type} : List (Nat × α) → Nat → Option α
  | [], _ => none
  | (k', v) :: rest, k => if k' = k then some v else mapGet rest k

/-- Update-in-place-or-append (JS `Map.prototype.set`): an existing key keeps
its position, a new key is appended. -/
def mapSet {α : Type} : List (Nat × α) → Nat → α → List (Nat × α)
  | [], k, v => [(k, v)]
  | (k', v') :: rest, k, v =>
    if k' = k then (k, v) :: rest else (k', v') :: mapSet rest k v

/-- Removal (JS `Map.prototype.delete`). -/
def mapDelete {α : Type} : List (Nat × α) → Nat → List (Nat × α)
  | [], _ => []
  | (k', v') :: rest, k =>
    if k' = k then mapDelete rest k else (k', v') :: mapDelete rest k

/-- The drain loop of `close()` (src/lib/index.js lines 111-115):
`server.sockets.forEach((socket, uuid) => { socket.destroy();
server.sockets.delete(uuid); })` — iterating the registry in insertion order,
issuing the destruction of each socket and then deleting its entry. -/
def drainTrace (o : Nat → Bool) : List (Nat × Nat) → List Event
  | [] => []
  | (u, k) :: rest =>
    Event.destroyCall k (o k) :: Event.registryDelete (some u) :: drainTrace o rest

/-- Synchronous executor phase of `close()` (src/lib/index.js lines 104-123).
If the instance is not listening, `resolve(server)` runs at once (the promise
settles synchronously).  Otherwise every registry entry is destroyed and
deleted, and `server.instance.close(cb)` is issued — `instance.listening`
drops to `false` synchronously, while `cb` (and hence the resolution) waits
for the transport.  The returned `Bool` is whether the promise settled during
the executor. -/
def closeExecSync (o : Nat → Bool) (s : ServerState) : ServerState × List Event × Bool :=
  if s.listening = false then
    (s, [Event.closeResolved], true)
  else
    ({ s with listening := false, registry := [] },
     drainTrace o s.registry ++ [Event.transportCloseIssued],
     false)

/-- Asynchronous completion of `close()`: the transport confirms shutdown and
the `instance.close` callback resolves the promise. -/
def closeCompletion (settledSync : Bool) : List Event :=
  if settledSync then [] else [Event.transportCloseCompleted, Event.closeResolved]

/-- Full behaviour of `close()`: executor phase, then transport completion.
The executor never throws and always eventually calls `resolve`, so the
promise always resolves. -/
def closeOp (o : Nat → Bool) (s : ServerState) : ServerState × List Event × Outcome :=
  let r := closeExecSync o s
  (r.1, r.2.1 ++ closeCompletion r.2.2, Outcome.resolved)

/-- Synchronous executor phase of `listen()` (src/lib/index.js lines 133-175).
If the instance is already listening, `resolve(server)` runs at once.
Otherwise one `request` observer and one `connection` observer are attached
to the instance (they are never detached), and `instance.listen(port, cb)` is
issued; `cb` only runs once the bind completes. -/
def listenExecSync (s : ServerState) : ServerState × List Event × Bool :=
  if s.listening = true then
    (s, [Event.listenResolved], true)
  else
    ({ s with handlers := s.handlers + 1 },
     [Event.attachObservers, Event.bindIssued],
     false)

/-- Asynchronous completion of `listen()`: on a successful bind the transport
starts listening and the callback resolves the promise.  On a failed bind
(e.g. port in use) the transport emits an `error` event instead; the executor
registered no rejection path and no error listener, so the promise never
settles. -/
def listenCompletion (bindOk : Bool) (settledSync : Bool) (s : ServerState) :
    ServerState × List Event × Outcome :=
  if settledSync then
    (s, [], Outcome.resolved)
  else if bindOk then
    ({ s with listening := true },
     [Event.bindCompleted, Event.listenResolved],
     Outcome.resolved)
  else
    (s, [Event.bindErrorEmitted], Outcome.pending)

/-- Full behaviour of `listen()`: executor phase, then bind completion. -/
def listenOp (bindOk : Bool) (s : ServerState) : ServerState × List Event × Outcome :=
  let r := listenExecSync s
  let c := listenCompletion bindOk r.2.2 r.1
  (c.1, r.2.1 ++ c.2.1, c.2.2)

/-- Embedding of `restart()` (src/lib/index.js lines 183-186):
`return server.close().then(server.listen())`.  Evaluation order of the JS
expression: `server.close()` runs its executor; then — still synchronously,
as the argument of `.then` — `server.listen()` runs its executor; the
transport close then completes, resolving `close`'s promise; since the value
passed to `.then` is a promise rather than a function it is ignored and the
`close` resolution passes straight through to `restart`'s promise; the bind
completes last, resolving `listen`'s (unobserved) promise. -/
def restartOp (o : Nat → Bool) (bindOk : Bool) (s : ServerState) :
    ServerState × List Event × Outcome :=
  let cl := closeExecSync o s
  let li := listenExecSync cl.1
  let lc := listenCompletion bindOk li.2.2 li.1
  (lc.1,
   cl.2.1 ++ li.2.1 ++ closeCompletion cl.2.2 ++ [Event.restartResolved] ++ lc.2.1,
   Outcome.resolved)

/-- Body of the `connection` observer (src/lib/index.js lines 157-165), run
once per attached copy when a connection is accepted: `socket.idle = true;
socket.uuid = uuid.v4(); server.sockets.set(socket.uuid, socket)`, plus
registration of the once-`close` removal handler (`socketCloseBody`). -/
def connectionBody (s : ServerState) (k : Nat) : ServerState × List Event :=
  let u := s.nextId
  ({ s with
      heap := mapSet s.heap k ⟨some true, some u⟩,
      registry := mapSet s.registry u k,
      nextId := u + 1 },
   [Event.registryInsert u k])

/-- Body of the once-`close` removal handler registered by the `connection`
observer (src/lib/index.js lines 162-164): deletes the registry entry under
the value `socket.uuid` holds when the connection reports closure. -/
def socketCloseBody (s : ServerState) (k : Nat) : ServerState × List Event :=
  match ((mapGet s.heap k).getD ⟨none, none⟩).uuid with
  | some u => ({ s with registry := mapDelete s.registry u },
               [Event.registryDelete (some u)])
  | none => (s, [Event.registryDelete none])

/-- Body of the `request` observer (src/lib/index.js lines 141-155), run once
per attached copy when a request starts on socket `k`:
`request.socket.idle = false`, plus registration of the completion closure
(`responseEndBody`) once each for the response events `close` and `finish`. -/
def requestBody (s : ServerState) (k : Nat) : ServerState × List Event :=
  let sd := (mapGet s.heap k).getD ⟨none, none⟩
  ({ s with heap := mapSet s.heap k { sd with idle := some false } }, [])

/-- Body of the completion closure (src/lib/index.js lines 147-153) the
`request` observer registers once for `close` and once for `finish` on the
response: `request.socket.idle = true`, then, if the instance is no longer
listening, `request.socket.destroy()` followed by
`server.sockets.delete(request.socket.uuid)` (a delete with key `undefined`
when the socket was never assigned a uuid). -/
def responseEndBody (o : Nat → Bool) (s : ServerState) (k : Nat) : ServerState × List Event :=
  let sd := (mapGet s.heap k).getD ⟨none, none⟩
  let s1 := { s with heap := mapSet s.heap k { sd with idle := some true } }
  if s1.listening = true then
    (s1, [])
  else
    match sd.uuid with
    | some u => ({ s1 with registry := mapDelete s1.registry u },
                 [Event.destroyCall k (o k), Event.registryDelete (some u)])
    | none => (s1, [Event.destroyCall k (o k), Event.registryDelete none])

/-- A response event is either abnormal termination (`close`) or normal
completion (`finish`); the literal `[ 'close', 'finish' ]` the code iterates
over. -/
inductive ResponseEvent where
  | rclose
  | rfinish
  deriving DecidableEq

/-- The handler `response.once(e, ...)` registers for a response event: the
`forEach` over `[ 'close', 'finish' ]` registers the same closure for both
events. -/
def responseHandler (o : Nat → Bool) : ResponseEvent → ServerState → Nat → ServerState × List Event
  | _ => responseEndBody o

/-- Delivery of a `connection` event for socket `k`: every attached copy of
the `connection` observer runs, in registration order (one copy is attached
per `listen()` call that found the instance not listening). -/
def runAcceptObservers : Nat → ServerState → Nat → ServerState × List Event
  | 0, s, _ => (s, [])
  | n + 1, s, k =>
    let r := connectionBody s k
    let r2 := runAcceptObservers n r.1 k
    (r2.1, r.2 ++ r2.2)

/-- The `idle` field of socket `k`, as far as it has been assigned. -/
def socketIdle (s : ServerState) (k : Nat) : Option Bool :=
  match mapGet s.heap k with
  | some sd => sd.idle
  | none => none

/-- The prefix of a trace strictly before the first occurrence of `b` (all of
it when `b` never occurs). -/
def beforeFirst : List Event → Event → List Event
  | [], _ => []
  | e :: tr, b => if e = b then [] else e :: beforeFirst tr b

/-- The fresh server object returned by `createServer`: not listening, no
sockets, no observers attached yet. -/
def freshServer : ServerState :=
  { listening := false, heap := [], registry := [], handlers := 0, nextId := 0 }

/-- A server that has completed one successful `listen()`. -/
def listening1 : ServerState := (listenOp true freshServer).1

/-- Delivery of a `connection` event: all `s.handlers` attached copies of the
`connection` observer run on the accepted socket. -/
def onConnection (s : ServerState) (k : Nat) : ServerState × List Event :=
  runAcceptObservers s.handlers s k

/-- A listening server that has accepted three connections (sockets 10, 11,
12) and served no request — the drain scenario of the specification. -/
def accepted3 : ServerState :=
  (onConnection (onConnection (onConnection listening1 10).1 11).1 12).1

/-- A listening server with one accepted connection (socket 0). -/
def c8Accepted : ServerState := (onConnection listening1 0).1

/-- The same server while a request is in flight on socket 0: the `request`
observer has run, and the completion closure is registered on the response. -/
def c8MidRequest : ServerState := (requestBody c8Accepted 0).1

theorem mapGet_mapSet_self {α : Type} (m : List (Nat × α)) (k : Nat) (v : α) :
    mapGet (mapSet m k v) k = some v := by
  induction m with
  | nil => simp [mapSet, mapGet]
  | cons p rest ih =>
    obtain ⟨k', v'⟩ := p
    by_cases h : k' = k
    · simp [mapSet, mapGet, h]
    · simp [mapSet, mapGet, h, ih]

theorem mapSet_fresh {α : Type} (m : List (Nat × α)) (u : Nat) (v : α)
    (h : ∀ p ∈ m, p.1 ≠ u) : mapSet m u v = m ++ [(u, v)] := by
  induction m with
  | nil => rfl
  | cons p rest ih =>
    obtain ⟨k', v'⟩ := p
    have hk : k' ≠ u := h (k', v') (by simp)
    simp only [mapSet, if_neg hk, List.cons_append, List.cons.injEq, true_and]
    exact ih fun q hq => h q (by simp [hq])

theorem drainTrace_shape (o : Nat → Bool) (r : List (Nat × Nat)) :
    ∀ e ∈ drainTrace o r,
      (∃ k b, e = Event.destroyCall k b) ∨ ∃ u, e = Event.registryDelete (some u) := by
  induction r with
  | nil => simp [drainTrace]
  | cons p rest ih =>
    obtain ⟨u, k⟩ := p
    intro e he
    simp only [drainTrace, List.mem_cons] at he
    rcases he with rfl | rfl | he
    · exact Or.inl ⟨k, o k, rfl⟩
    · exact Or.inr ⟨u, rfl⟩
    · exact ih e he

theorem drain_destroy_mem (o : Nat → Bool) (r : List (Nat × Nat)) (u k : Nat)
    (h : (u, k) ∈ r) : Event.destroyCall k (o k) ∈ drainTrace o r := by
  induction r with
  | nil => simp at h
  | cons p rest ih =>
    obtain ⟨u', k'⟩ := p
    rcases List.mem_cons.mp h with h1 | h2
    · obtain ⟨rfl, rfl⟩ := Prod.mk.injEq .. ▸ h1
      simp [drainTrace]
    · simp [drainTrace, ih h2]

theorem drain_delete_mem (o : Nat → Bool) (r : List (Nat × Nat)) (u k : Nat)
    (h : (u, k) ∈ r) : Event.registryDelete (some u) ∈ drainTrace o r := by
  induction r with
  | nil => simp at h
  | cons p rest ih =>
    obtain ⟨u', k'⟩ := p
    rcases List.mem_cons.mp h with h1 | h2
    · obtain ⟨rfl, rfl⟩ := Prod.mk.injEq .. ▸ h1
      simp [drainTrace]
    · simp [drainTrace, ih h2]

/-- Claim C6: `close()` is idempotent when not listening — it resolves immediately,
issues zero destroy calls, and leaves the whole server state (registry
included) unchanged. -/
theorem close_not_listening_noop (o : Nat → Bool) (s : ServerState)
    (h : s.listening = false) :
    closeOp o s = (s, [Event.closeResolved], Outcome.resolved) ∧
    ∀ k b, Event.destroyCall k b ∉ (closeOp o s).2.1 := by
  constructor
  · simp [closeOp, closeExecSync, closeCompletion, h]
  · intro k b
    simp [closeOp, closeExecSync, closeCompletion, h]

theorem close_not_listening_noop_witness :
    freshServer.listening = false ∧
    (closeOp (fun _ => true) freshServer = (freshServer, [Event.closeResolved], Outcome.resolved) ∧
     ∀ k b, Event.destroyCall k b ∉ (closeOp (fun _ => true) freshServer).2.1) :=
  ⟨rfl, close_not_listening_noop (fun _ => true) freshServer rfl⟩

/-- Claim C5: `listen()` is idempotent — after a first successful `listen()` from a
non-listening server, a second `listen()` resolves immediately with the state
unchanged, attaches no observers, inserts nothing into the registry, and the
two calls together issue exactly one transport bind. -/
theorem listen_idempotent (s : ServerState) (h : s.listening = false) :
    listenOp true (listenOp true s).1 =
      ((listenOp true s).1, [Event.listenResolved], Outcome.resolved) ∧
    ((listenOp true s).2.1 ++ (listenOp true (listenOp true s).1).2.1).count Event.bindIssued = 1 ∧
    (∀ u k, Event.registryInsert u k ∉ (listenOp true (listenOp true s).1).2.1) ∧
    Event.attachObservers ∉ (listenOp true (listenOp true s).1).2.1 := by
  refine ⟨?_, ?_, ?_, ?_⟩
  · simp [listenOp, listenExecSync, listenCompletion, h]
  · simp [listenOp, listenExecSync, listenCompletion, h]
  · intro u k
    simp [listenOp, listenExecSync, listenCompletion, h]
  · simp [listenOp, listenExecSync, listenCompletion, h]

theorem listen_idempotent_witness :
    freshServer.listening = false ∧
    (listenOp true (listenOp true freshServer).1 =
      ((listenOp true freshServer).1, [Event.listenResolved], Outcome.resolved) ∧
    ((listenOp true freshServer).2.1 ++
      (listenOp true (listenOp true freshServer).1).2.1).count Event.bindIssued = 1 ∧
    (∀ u k, Event.registryInsert u k ∉ (listenOp true (listenOp true freshServer).1).2.1) ∧
    Event.attachObservers ∉ (listenOp true (listenOp true freshServer).1).2.1) :=
  ⟨rfl, listen_idempotent freshServer rfl⟩

/-- Claim C2 counterexample: on a bind failure the future returned by `listen()`
does not fail with a `BindError` — it never settles at all (the executor has
no rejection path), so the claim is false at the fresh server. -/
theorem listen_bind_failure_counterexample :
    freshServer.listening = false ∧
    (listenOp false freshServer).2.2 ≠ Outcome.rejectedWith JsError.bindError ∧
    (listenOp false freshServer).2.2 = Outcome.pending := by
  decide

/-- Claim C2 amended: when the transport fails to bind, `listen()`'s promise never
settles (the executor registered no rejection path and no `error` listener;
the bind error is emitted as a transport `error` event); the lifecycle state
remains not-listening and the registry is untouched, though the observer pair
attached by this call remains attached. -/
theorem listen_bind_failure (s : ServerState) (h : s.listening = false) :
    (listenOp false s).2.2 = Outcome.pending ∧
    (listenOp false s).1.listening = false ∧
    Event.bindErrorEmitted ∈ (listenOp false s).2.1 ∧
    (listenOp false s).1.registry = s.registry ∧
    (listenOp false s).1.handlers = s.handlers + 1 := by
  simp [listenOp, listenExecSync, listenCompletion, h]

theorem listen_bind_failure_witness :
    freshServer.listening = false ∧
    ((listenOp false freshServer).2.2 = Outcome.pending ∧
    (listenOp false freshServer).1.listening = false ∧
    Event.bindErrorEmitted ∈ (listenOp false freshServer).2.1 ∧
    (listenOp false freshServer).1.registry = freshServer.registry ∧
    (listenOp false freshServer).1.handlers = freshServer.handlers + 1) :=
  ⟨rfl, listen_bind_failure freshServer rfl⟩

/-- Claim C3: once `close()` on a listening server resolves, the connection
registry is empty — the drain loop deleted every entry, however many
connections were live — and the server is no longer listening. -/
theorem close_empties_registry (o : Nat → Bool) (s : ServerState)
    (h : s.listening = true) :
    (closeOp o s).1.registry = [] ∧
    (closeOp o s).1.listening = false ∧
    (closeOp o s).2.2 = Outcome.resolved := by
  simp [closeOp, closeExecSync, closeCompletion, h]

theorem close_empties_registry_witness :
    accepted3.listening = true ∧
    ((closeOp (fun _ => true) accepted3).1.registry = [] ∧
    (closeOp (fun _ => true) accepted3).1.listening = false ∧
    (closeOp (fun _ => true) accepted3).2.2 = Outcome.resolved) :=
  ⟨by decide, close_empties_registry (fun _ => true) accepted3 (by decide)⟩

theorem drain_destroy_precedes_delete (o : Nat → Bool) (r : List (Nat × Nat)) (u k : Nat)
    (h : (u, k) ∈ r) :
    ∃ pre post, drainTrace o r =
      pre ++ Event.destroyCall k (o k) :: Event.registryDelete (some u) :: post := by
  induction r with
  | nil => simp at h
  | cons p rest ih =>
    obtain ⟨u', k'⟩ := p
    rcases List.mem_cons.mp h with h1 | h2
    · obtain ⟨rfl, rfl⟩ := Prod.mk.injEq .. ▸ h1
      exact ⟨[], drainTrace o rest, by simp [drainTrace]⟩
    · obtain ⟨pre, post, hp⟩ := ih h2
      exact ⟨Event.destroyCall k' (o k') :: Event.registryDelete (some u') :: pre, post,
        by simp [drainTrace, hp]⟩

/-- Claim C4: during the drain that `close()` triggers, every connection's
destruction is issued strictly before (in fact immediately before) its
registry deletion; the deferred drain performed by the response-completion
observer preserves the same destroy-then-delete ordering. -/
theorem destroy_precedes_delete (o : Nat → Bool) (s : ServerState)
    (h : s.listening = true) :
    (∀ u k, (u, k) ∈ s.registry →
      ∃ pre post, (closeOp o s).2.1 =
        pre ++ Event.destroyCall k (o k) :: Event.registryDelete (some u) :: post) ∧
    (∀ (s' : ServerState) (k : Nat) (u : Option Nat),
      Event.registryDelete u ∈ (responseEndBody o s' k).2 →
      ∃ pre post, (responseEndBody o s' k).2 =
        pre ++ Event.destroyCall k (o k) :: Event.registryDelete u :: post) := by
  constructor
  · intro u k hm
    obtain ⟨pre, post, hp⟩ := drain_destroy_precedes_delete o s.registry u k hm
    refine ⟨pre, post ++ [Event.transportCloseIssued, Event.transportCloseCompleted,
      Event.closeResolved], ?_⟩
    simp [closeOp, closeExecSync, closeCompletion, h, hp]
  · intro s' k u hm
    cases hl : s'.listening with
    | true => simp [responseEndBody, hl] at hm
    | false =>
      cases hu : ((mapGet s'.heap k).getD ⟨none, none⟩).uuid with
      | some u' =>
        simp only [responseEndBody, hl, hu, Bool.false_eq_true, if_false,
          List.mem_cons, List.not_mem_nil, or_false] at hm ⊢
        rcases hm with hm | hm
        · exact absurd hm (by simp)
        · exact ⟨[], [], by simp [hm]⟩
      | none =>
        simp only [responseEndBody, hl, hu, Bool.false_eq_true, if_false,
          List.mem_cons, List.not_mem_nil, or_false] at hm ⊢
        rcases hm with hm | hm
        · exact absurd hm (by simp)
        · exact ⟨[], [], by simp [hm]⟩

theorem destroy_precedes_delete_witness :
    accepted3.listening = true ∧
    ((∀ u k, (u, k) ∈ accepted3.registry →
      ∃ pre post, (closeOp (fun _ => true) accepted3).2.1 =
        pre ++ Event.destroyCall k true :: Event.registryDelete (some u) :: post) ∧
    (∀ (s' : ServerState) (k : Nat) (u : Option Nat),
      Event.registryDelete u ∈ (responseEndBody (fun _ => true) s' k).2 →
      ∃ pre post, (responseEndBody (fun _ => true) s' k).2 =
        pre ++ Event.destroyCall k true :: Event.registryDelete u :: post)) :=
  ⟨by decide, destroy_precedes_delete (fun _ => true) accepted3 (by decide)⟩

/-- Claim C9: `close()` does not observe the outcome of the destructions it issues
(they are fire-and-forget; failures surface only out-of-band): whatever the
destruction outcomes, its promise resolves, every registry entry is both
destroyed and deleted, and the registry ends empty. -/
theorem close_best_effort_drain (o : Nat → Bool) (s : ServerState)
    (h : s.listening = true) :
    (closeOp o s).2.2 = Outcome.resolved ∧
    (closeOp o s).1.registry = [] ∧
    ∀ u k, (u, k) ∈ s.registry →
      Event.destroyCall k (o k) ∈ (closeOp o s).2.1 ∧
      Event.registryDelete (some u) ∈ (closeOp o s).2.1 := by
  refine ⟨by simp [closeOp, closeExecSync, closeCompletion, h],
    by simp [closeOp, closeExecSync, closeCompletion, h], ?_⟩
  intro u k hm
  have htr : (closeOp o s).2.1 = drainTrace o s.registry ++
      [Event.transportCloseIssued, Event.transportCloseCompleted, Event.closeResolved] := by
    simp [closeOp, closeExecSync, closeCompletion, h]
  rw [htr]
  exact ⟨List.mem_append_left _ (drain_destroy_mem o s.registry u k hm),
         List.mem_append_left _ (drain_delete_mem o s.registry u k hm)⟩

theorem close_best_effort_drain_witness :
    accepted3.listening = true ∧
    ((closeOp (fun _ => false) accepted3).2.2 = Outcome.resolved ∧
    (closeOp (fun _ => false) accepted3).1.registry = [] ∧
    ∀ u k, (u, k) ∈ accepted3.registry →
      Event.destroyCall k false ∈ (closeOp (fun _ => false) accepted3).2.1 ∧
      Event.registryDelete (some u) ∈ (closeOp (fun _ => false) accepted3).2.1) :=
  ⟨by decide, close_best_effort_drain (fun _ => false) accepted3 (by decide)⟩

/-- Claim C7: the `idle` flag of a socket is set to `true` by the accept observer,
to `false` by the request observer when a request starts, and back to `true`
by the completion closure; normal completion (`finish`) and abnormal
termination (`close`) of the response run the very same closure. -/
theorem idle_flag_lifecycle (o : Nat → Bool) (s : ServerState) (k : Nat) :
    socketIdle (connectionBody s k).1 k = some true ∧
    socketIdle (requestBody s k).1 k = some false ∧
    (∀ e, socketIdle (responseHandler o e s k).1 k = some true) ∧
    (∀ e e', responseHandler o e = responseHandler o e') := by
  refine ⟨?_, ?_, ?_, ?_⟩
  · simp [socketIdle, connectionBody, mapGet_mapSet_self]
  · simp [socketIdle, requestBody, mapGet_mapSet_self]
  · intro e
    have he : responseHandler o e = responseEndBody o := by cases e <;> rfl
    rw [he]
    simp only [responseEndBody]
    split
    · simp [socketIdle, mapGet_mapSet_self]
    · split
      · simp [socketIdle, mapGet_mapSet_self]
      · simp [socketIdle, mapGet_mapSet_self]
  · intro e e'
    cases e <;> cases e' <;> rfl

theorem closeResolved_not_mem_drain (o : Nat → Bool) (r : List (Nat × Nat)) :
    Event.closeResolved ∉ drainTrace o r := by
  intro hm
  rcases drainTrace_shape o r Event.closeResolved hm with ⟨k, b, hk⟩ | ⟨u, hk⟩ <;>
    exact absurd hk (by simp)

theorem bindIssued_not_mem_drain (o : Nat → Bool) (r : List (Nat × Nat)) :
    Event.bindIssued ∉ drainTrace o r := by
  intro hm
  rcases drainTrace_shape o r Event.bindIssued hm with ⟨k, b, hk⟩ | ⟨u, hk⟩ <;>
    exact absurd hk (by simp)

theorem beforeFirst_append_of_ne (l1 l2 : List Event) (b : Event)
    (h : ∀ x ∈ l1, x ≠ b) :
    beforeFirst (l1 ++ l2) b = l1 ++ beforeFirst l2 b := by
  induction l1 with
  | nil => simp
  | cons a l ih =>
    have ha : a ≠ b := h a (by simp)
    simp only [List.cons_append, beforeFirst, if_neg ha, List.cons.injEq, true_and]
    exact ih fun x hx => h x (by simp [hx])

/-- Claim C1 counterexample: on a listening server, `restart()` issues the
transport bind strictly before `close()`'s promise has resolved (the bind
appears in the trace prefix preceding the first `closeResolved`, and no
`closeResolved` precedes the first bind) — `listen()` does not wait for
`close()` to resolve. -/
theorem restart_sequencing_counterexample :
    listening1.listening = true ∧
    Event.bindIssued ∈
      beforeFirst (restartOp (fun _ => true) true listening1).2.1 Event.closeResolved ∧
    Event.closeResolved ∉
      beforeFirst (restartOp (fun _ => true) true listening1).2.1 Event.bindIssued := by
  decide

/-- Claim C1 amended: `restart()` evaluates `server.listen()` immediately (as the
argument expression of `.then`), so on a listening server the bind is issued
strictly before `close()` resolves; because the value handed to `.then` is a
promise rather than a function it is ignored, and `restart()`'s promise
resolves with `close()`'s; exactly one bind is issued in total, and after all
completions the server is listening again with an empty registry. -/
theorem restart_eager_listen (o : Nat → Bool) (s : ServerState)
    (h : s.listening = true) :
    Event.bindIssued ∈ beforeFirst (restartOp o true s).2.1 Event.closeResolved ∧
    Event.closeResolved ∉ beforeFirst (restartOp o true s).2.1 Event.bindIssued ∧
    (restartOp o true s).2.1.count Event.bindIssued = 1 ∧
    (restartOp o true s).2.2 = Outcome.resolved ∧
    (restartOp o true s).1.listening = true ∧
    (restartOp o true s).1.registry = [] := by
  have hd1 : ∀ x ∈ drainTrace o s.registry, x ≠ Event.closeResolved :=
    fun x hx hxb => closeResolved_not_mem_drain o s.registry (hxb ▸ hx)
  have hd2 : ∀ x ∈ drainTrace o s.registry, x ≠ Event.bindIssued :=
    fun x hx hxb => bindIssued_not_mem_drain o s.registry (hxb ▸ hx)
  have htr : (restartOp o true s).2.1 =
      drainTrace o s.registry ++
        [Event.transportCloseIssued, Event.attachObservers, Event.bindIssued,
         Event.transportCloseCompleted, Event.closeResolved, Event.restartResolved,
         Event.bindCompleted, Event.listenResolved] := by
    simp [restartOp, closeExecSync, listenExecSync, listenCompletion, closeCompletion, h]
  refine ⟨?_, ?_, ?_, ?_, ?_, ?_⟩
  · rw [htr, beforeFirst_append_of_ne _ _ _ hd1]
    simp [beforeFirst]
  · rw [htr, beforeFirst_append_of_ne _ _ _ hd2]
    simp [beforeFirst, List.mem_append, closeResolved_not_mem_drain o s.registry]
  · rw [htr, List.count_append,
      List.count_eq_zero.mpr (bindIssued_not_mem_drain o s.registry)]
    rfl
  · simp [restartOp]
  · simp [restartOp, closeExecSync, listenExecSync, listenCompletion, closeCompletion, h]
  · simp [restartOp, closeExecSync, listenExecSync, listenCompletion, closeCompletion, h]

theorem restart_eager_listen_witness :
    listening1.listening = true ∧
    (Event.bindIssued ∈
      beforeFirst (restartOp (fun _ => false) true listening1).2.1 Event.closeResolved ∧
    Event.closeResolved ∉
      beforeFirst (restartOp (fun _ => false) true listening1).2.1 Event.bindIssued ∧
    (restartOp (fun _ => false) true listening1).2.1.count Event.bindIssued = 1 ∧
    (restartOp (fun _ => false) true listening1).2.2 = Outcome.resolved ∧
    (restartOp (fun _ => false) true listening1).1.listening = true ∧
    (restartOp (fun _ => false) true listening1).1.registry = []) :=
  ⟨by decide, restart_eager_listen (fun _ => false) listening1 (by decide)⟩

/-- Claim C8 counterexample: with one connection mid-request when `close()` is
called, the destruction of that connection is issued twice — once eagerly by
`close()`'s drain, before the request has completed, and once again by the
completion closure — refuting "issued exactly once, and only after the
request completes". -/
theorem midrequest_destroy_counterexample :
    c8MidRequest.listening = true ∧
    socketIdle c8MidRequest 0 = some false ∧
    Event.destroyCall 0 true ∈ (closeOp (fun _ => true) c8MidRequest).2.1 ∧
    ((closeOp (fun _ => true) c8MidRequest).2.1 ++
      (responseEndBody (fun _ => true) (closeOp (fun _ => true) c8MidRequest).1 0).2).count
        (Event.destroyCall 0 true) = 2 := by
  decide

/-- Claim C8 amended: for a connection that is mid-request when `close()` is called
and whose request finishes afterwards, the destruction is issued twice — once
by `close()`'s unconditional drain (before the request completes, together
with the registry deletion) and once by the completion closure after the
request completes; whatever the destruction outcomes, the connection ends up
outside the registry with its `idle` flag back to `true`. -/
theorem midrequest_destroy_twice (o : Nat → Bool) :
    Event.destroyCall 0 (o 0) ∈ (closeOp o c8MidRequest).2.1 ∧
    Event.destroyCall 0 (o 0) ∈ (responseEndBody o (closeOp o c8MidRequest).1 0).2 ∧
    ((closeOp o c8MidRequest).2.1 ++
        (responseEndBody o (closeOp o c8MidRequest).1 0).2).count (Event.destroyCall 0 (o 0)) = 2 ∧
    (responseEndBody o (closeOp o c8MidRequest).1 0).1.registry = [] ∧
    socketIdle (responseEndBody o (closeOp o c8MidRequest).1 0).1 0 = some true := by
  cases h0 : o 0 <;>
    simp [c8MidRequest, c8Accepted, listening1, onConnection, runAcceptObservers,
      connectionBody, requestBody, freshServer, listenOp, listenExecSync, listenCompletion,
      closeOp, closeExecSync, closeCompletion, drainTrace, responseEndBody, mapGet,
      mapSet, mapDelete, socketIdle, h0, List.count_cons, List.count_append]

/-- Repeated `close()`-then-`listen()` cycles starting from the fresh server:
`cycles n` is the state after `n` cycles (the first cycle's `close()` is the
not-listening no-op, and every `listen()` finds the instance not listening
and attaches a fresh observer pair). -/
def cycles : Nat → ServerState
  | 0 => freshServer
  | n + 1 => (listenOp true (closeOp (fun _ => true) (cycles n)).1).1

theorem cycles_succ (n : Nat) :
    cycles (n + 1) =
      { listening := true, heap := [], registry := [], handlers := n + 1, nextId := 0 } := by
  induction n with
  | zero => decide
  | succ m ih =>
    rw [cycles, ih]
    simp [closeOp, closeExecSync, closeCompletion, listenOp, listenExecSync,
      listenCompletion, drainTrace]

theorem runAcceptObservers_spec (cnt : Nat) :
    ∀ (s : ServerState) (k : Nat), (∀ p ∈ s.registry, p.1 < s.nextId) →
    (runAcceptObservers cnt s k).1.registry
        = s.registry ++ (List.range cnt).map (fun i => (s.nextId + i, k)) ∧
    (runAcceptObservers cnt s k).1.nextId = s.nextId + cnt ∧
    (runAcceptObservers cnt s k).2
        = (List.range cnt).map (fun i => Event.registryInsert (s.nextId + i) k) ∧
    mapGet (runAcceptObservers cnt s k).1.heap k
        = (if cnt = 0 then mapGet s.heap k
           else some ⟨some true, some (s.nextId + (cnt - 1))⟩) ∧
    (runAcceptObservers cnt s k).1.listening = s.listening ∧
    (runAcceptObservers cnt s k).1.handlers = s.handlers := by
  induction cnt with
  | zero =>
    intro s k hfresh
    simp [runAcceptObservers]
  | succ n ih =>
    intro s k hfresh
    have hne : ∀ p ∈ s.registry, p.1 ≠ s.nextId := fun p hp => Nat.ne_of_lt (hfresh p hp)
    have hset : mapSet s.registry s.nextId k = s.registry ++ [(s.nextId, k)] :=
      mapSet_fresh _ _ _ hne
    have hcb : (connectionBody s k).1.nextId = s.nextId + 1 := rfl
    have hcr : (connectionBody s k).1.registry = mapSet s.registry s.nextId k := rfl
    have hch : (connectionBody s k).1.heap = mapSet s.heap k ⟨some true, some s.nextId⟩ := rfl
    have hcl : (connectionBody s k).1.listening = s.listening := rfl
    have hcn : (connectionBody s k).1.handlers = s.handlers := rfl
    have hfresh1 : ∀ p ∈ (connectionBody s k).1.registry,
        p.1 < (connectionBody s k).1.nextId := by
      intro p hp
      rw [hcr, hset] at hp
      rw [hcb]
      rcases List.mem_append.mp hp with hp | hp
      · exact Nat.lt_succ_of_lt (hfresh p hp)
      · rw [List.mem_singleton.mp hp]
        exact Nat.lt_succ_self _
    obtain ⟨hreg, hnext, htr, hheap, hlis, hhan⟩ := ih (connectionBody s k).1 k hfresh1
    rw [hcb, hcr, hset] at hreg
    rw [hcb] at hnext
    rw [hcb] at htr
    rw [hcb, hch] at hheap
    rw [hcl] at hlis
    rw [hcn] at hhan
    have harith : ∀ i : Nat, s.nextId + 1 + i = s.nextId + (i + 1) := fun i => by omega
    have hmap : (List.range (n + 1)).map (fun i => (s.nextId + i, k))
        = (s.nextId, k) :: (List.range n).map (fun i => (s.nextId + 1 + i, k)) := by
      rw [List.range_succ_eq_map, List.map_cons, List.map_map]
      simp only [Function.comp_def, Nat.add_zero, Nat.succ_eq_add_one, harith]
    have hmap2 : (List.range (n + 1)).map (fun i => Event.registryInsert (s.nextId + i) k)
        = Event.registryInsert s.nextId k ::
            (List.range n).map (fun i => Event.registryInsert (s.nextId + 1 + i) k) := by
      rw [List.range_succ_eq_map, List.map_cons, List.map_map]
      simp only [Function.comp_def, Nat.add_zero, Nat.succ_eq_add_one, harith]
    refine ⟨?_, ?_, ?_, ?_, ?_, ?_⟩
    · simp only [runAcceptObservers]
      rw [hreg, hmap]
      simp [List.append_assoc]
    · simp only [runAcceptObservers]
      rw [hnext]
      omega
    · simp only [runAcceptObservers]
      rw [htr, hmap2]
      have hc2 : (connectionBody s k).2 = [Event.registryInsert s.nextId k] := rfl
      rw [hc2]
      rfl
    · simp only [runAcceptObservers]
      rw [hheap]
      by_cases hn : n = 0
      · subst hn
        simp [mapGet_mapSet_self]
      · rw [if_neg hn, if_neg (Nat.succ_ne_zero n)]
        have harr : s.nextId + 1 + (n - 1) = s.nextId + (n + 1 - 1) := by omega
        rw [harr]
    · simp only [runAcceptObservers]
      rw [hlis]
    · simp only [runAcceptObservers]
      rw [hhan]

/-- Claim C10: every `listen()` from a non-listening state attaches one more
observer pair to the same instance and `close()` detaches none, so after `n`
`close()`/`listen()` cycles the instance carries `n` accept observers; a
single newly accepted connection then runs the accept handler `n` times, is
assigned the `n` successive identifiers, is inserted into the registry under
every one of them, and its handle retains only the last identifier. -/
theorem observers_accumulate (n : Nat) (hn : 1 ≤ n) :
    (cycles n).handlers = n ∧
    (∀ s : ServerState, s.listening = false → (listenOp true s).1.handlers = s.handlers + 1) ∧
    (∀ (o : Nat → Bool) (s : ServerState), (closeOp o s).1.handlers = s.handlers) ∧
    (runAcceptObservers (cycles n).handlers (cycles n) 0).1.registry
        = (List.range n).map (fun u => (u, 0)) ∧
    (runAcceptObservers (cycles n).handlers (cycles n) 0).2
        = (List.range n).map (fun u => Event.registryInsert u 0) ∧
    mapGet (runAcceptObservers (cycles n).handlers (cycles n) 0).1.heap 0
        = some ⟨some true, some (n - 1)⟩ := by
  obtain ⟨m, rfl⟩ : ∃ m, n = m + 1 := ⟨n - 1, by omega⟩
  have hc := cycles_succ m
  have hfresh : ∀ p ∈ (cycles (m + 1)).registry, p.1 < (cycles (m + 1)).nextId := by
    rw [hc]
    simp
  obtain ⟨hreg, hnext, htr, hheap, hlis, hhan⟩ :=
    runAcceptObservers_spec (cycles (m + 1)).handlers (cycles (m + 1)) 0 hfresh
  refine ⟨by rw [hc], ?_, ?_, ?_, ?_, ?_⟩
  · intro s hs
    simp [listenOp, listenExecSync, listenCompletion, hs]
  · intro o s
    cases hl : s.listening <;> simp [closeOp, closeExecSync, closeCompletion, hl]
  · rw [hc] at hreg ⊢
    simpa using hreg
  · rw [hc] at htr ⊢
    simpa using htr
  · rw [hc] at hheap ⊢
    simpa using hheap

theorem observers_accumulate_witness :
    1 ≤ 2 ∧
    ((cycles 2).handlers = 2 ∧
    (∀ s : ServerState, s.listening = false → (listenOp true s).1.handlers = s.handlers + 1) ∧
    (∀ (o : Nat → Bool) (s : ServerState), (closeOp o s).1.handlers = s.handlers) ∧
    (runAcceptObservers (cycles 2).handlers (cycles 2) 0).1.registry
        = (List.range 2).map (fun u => (u, 0)) ∧
    (runAcceptObservers (cycles 2).handlers (cycles 2) 0).2
        = (List.range 2).map (fun u => Event.registryInsert u 0) ∧
    mapGet (runAcceptObservers (cycles 2).handlers (cycles 2) 0).1.heap 0
        = some ⟨some true, some (2 - 1)⟩) :=
  ⟨by decide, observers_accumulate 2 (by decide)⟩

end NicerServer
